import Mathlib

/-!
Verification of the Gemini browser-automation backend (gemini-api).

The definitions below are a shallow embedding of the JavaScript sources:
  - src/gemini-browser.js : session registry, readiness detection,
    interaction driver (sendMessage), completion detector (waitForResponse),
    extraction cascade (extractLastResponse);
  - src/server.js         : serial (/discuss) and parallel (/discuss-v2)
    discussion protocols;
  - src/db.js             : saveMessage / updateRoomTimestamp persistence.

Browser pages are modelled as observation sources: at each elapsed
millisecond the page reports whether a stop button or a loading indicator
is visible and what each extraction strategy would return (none models a
strategy that threw).  Waits advance an explicit elapsed-time counter;
the initial 3 s grace delay of waitForResponse happens before its
startTime is taken, so elapsed time is measured exactly as the code does.
-/

namespace GeminiApi

/-! ## Extraction cascade (gemini-browser.js, extractLastResponse) -/

/-- Boilerplate phrase rejected by extraction (gemini-browser.js line 336). -/
def stopPhrase : String := "你已让系统停止"

/-- Sentinel returned when every extraction strategy fails
(gemini-browser.js line 344). -/
def extractionFailureSentinel : String := "[响应提取失败]"

/-- Substring occurrence over character lists: pat occurs at some position
of s (an empty pattern always occurs). -/
def listContains : List Char → List Char → Bool
  | [], pat => pat.isEmpty
  | c :: rest, pat => pat.isPrefixOf (c :: rest) || listContains rest pat

/-- JavaScript string .includes: pat occurs somewhere in s. -/
def containsSub (s pat : String) : Bool := listContains s.toList pat.toList

/-- The acceptance test of one strategy result: the strategy did not throw,
its text is longer than 10 characters, and the text does not contain the
stop-phrase boilerplate (gemini-browser.js line 336). -/
def strategyWins : Option String → Bool
  | some t => decide (10 < t.length) && !(containsSub t stopPhrase)
  | none => false

/-- Extraction cascade: each list entry is the outcome of one strategy in
priority order (none = the strategy threw, caught at line 339); the first
winning text is returned, otherwise the sentinel (lines 333-344). -/
def extractLastResponse : List (Option String) → String
  | [] => extractionFailureSentinel
  | r :: rest => if strategyWins r then r.getD extractionFailureSentinel
                 else extractLastResponse rest

/-! ## Completion detector (gemini-browser.js, waitForResponse) -/

/-- One observation of the page at a poll instant. -/
structure Obs where
  stopButton : Bool
  loading : Bool
  strategies : List (Option String)

/-- Polling interval after a stability check (line 280). -/
def pollInterval : Nat := 500

/-- Wait used when a stop button or loading indicator is present
(lines 253 and 261). -/
def generatingInterval : Nat := 1000

/-- Hard polling ceiling, 3 minutes (line 241). -/
def maxWait : Nat := 180000

/-- Settle delay before the final extraction pass (line 284). -/
def settleDelay : Nat := 2000

/-- Required number of consecutive stable polls (line 271). -/
def stabilityThreshold : Nat := 5

/-- Initial grace delay before polling starts (line 239); it elapses before
startTime is recorded, so it does not count towards the ceiling. -/
def graceDelay : Nat := 3000

/-- Fuel for the polling loop: every iteration advances elapsed time by at
least pollInterval = 500 ms, so 361 iterations always pass the 180 s
ceiling; the fuel-exhausted case is unreachable. -/
def wfrFuel : Nat := 361

/-- The polling loop of waitForResponse (lines 246-281).  Arguments after
the page: fuel, elapsed ms since startTime, lastTextLength, stableCount.
Returns the elapsed time at which the loop exits (by the stability break
or by the ceiling). -/
def wfrLoop (page : Nat → Obs) : Nat → Nat → Nat → Nat → Nat
  | 0, elapsed, _lastLen, _stable => elapsed
  | fuel + 1, elapsed, lastLen, stable =>
    if elapsed < maxWait then
      let o := page elapsed
      if o.stopButton = true then
        wfrLoop page fuel (elapsed + generatingInterval) lastLen 0
      else if o.loading = true then
        wfrLoop page fuel (elapsed + generatingInterval) lastLen 0
      else
        let t := extractLastResponse o.strategies
        if 0 < t.length ∧ t.length = lastLen then
          if stabilityThreshold ≤ stable + 1 then elapsed
          else wfrLoop page fuel (elapsed + pollInterval) lastLen (stable + 1)
        else
          wfrLoop page fuel (elapsed + pollInterval) t.length 0
    else elapsed

/-- Elapsed time at which the polling loop of waitForResponse exits. -/
def wfrExit (page : Nat → Obs) : Nat := wfrLoop page wfrFuel 0 0 0

/-- waitForResponse (lines 235-287): run the polling loop, wait the settle
delay, and return one final extraction pass. -/
def waitForResponse (page : Nat → Obs) : String :=
  extractLastResponse (page (wfrExit page + settleDelay)).strategies

/-- The list of elapsed times at which the polling loop inspects the page
(one entry per iteration that passes the while guard); mirrors wfrLoop. -/
def wfrSchedule (page : Nat → Obs) : Nat → Nat → Nat → Nat → List Nat
  | 0, _elapsed, _lastLen, _stable => []
  | fuel + 1, elapsed, lastLen, stable =>
    if elapsed < maxWait then
      let o := page elapsed
      if o.stopButton = true then
        elapsed :: wfrSchedule page fuel (elapsed + generatingInterval) lastLen 0
      else if o.loading = true then
        elapsed :: wfrSchedule page fuel (elapsed + generatingInterval) lastLen 0
      else
        let t := extractLastResponse o.strategies
        if 0 < t.length ∧ t.length = lastLen then
          if stabilityThreshold ≤ stable + 1 then [elapsed]
          else elapsed :: wfrSchedule page fuel (elapsed + pollInterval) lastLen (stable + 1)
        else
          elapsed :: wfrSchedule page fuel (elapsed + pollInterval) t.length 0
    else []

/-- Poll schedule of a full waitForResponse run. -/
def wfrPolls (page : Nat → Obs) : List Nat := wfrSchedule page wfrFuel 0 0 0

/-! ### Step lemmas for the polling loop -/

theorem wfrLoop_ceiling (page : Nat → Obs) (fuel elapsed lastLen stable : Nat)
    (h : maxWait ≤ elapsed) :
    wfrLoop page fuel elapsed lastLen stable = elapsed := by
  cases fuel <;> simp [wfrLoop, Nat.not_lt.mpr h]

theorem wfrLoop_generating (page : Nat → Obs) (fuel elapsed lastLen stable : Nat)
    (hlt : elapsed < maxWait)
    (hgen : (page elapsed).stopButton = true ∨ (page elapsed).loading = true) :
    wfrLoop page (fuel + 1) elapsed lastLen stable =
      wfrLoop page fuel (elapsed + generatingInterval) lastLen 0 := by
  rcases hgen with h | h
  · simp [wfrLoop, hlt, h]
  · cases hstop : (page elapsed).stopButton <;> simp [wfrLoop, hlt, h, hstop]

theorem wfrLoop_break (page : Nat → Obs) (fuel elapsed lastLen stable : Nat)
    (hlt : elapsed < maxWait)
    (hstop : (page elapsed).stopButton = false)
    (hload : (page elapsed).loading = false)
    (hlen : 0 < (extractLastResponse (page elapsed).strategies).length)
    (heq : (extractLastResponse (page elapsed).strategies).length = lastLen)
    (hs : stabilityThreshold ≤ stable + 1) :
    wfrLoop page (fuel + 1) elapsed lastLen stable = elapsed := by
  simp only [wfrLoop, if_pos hlt, hstop, hload]
  simp only [Bool.false_eq_true, if_false]
  rw [if_pos ⟨hlen, heq⟩, if_pos hs]

theorem wfrLoop_stable (page : Nat → Obs) (fuel elapsed lastLen stable : Nat)
    (hlt : elapsed < maxWait)
    (hstop : (page elapsed).stopButton = false)
    (hload : (page elapsed).loading = false)
    (hlen : 0 < (extractLastResponse (page elapsed).strategies).length)
    (heq : (extractLastResponse (page elapsed).strategies).length = lastLen)
    (hs : ¬ stabilityThreshold ≤ stable + 1) :
    wfrLoop page (fuel + 1) elapsed lastLen stable =
      wfrLoop page fuel (elapsed + pollInterval) lastLen (stable + 1) := by
  simp only [wfrLoop, if_pos hlt, hstop, hload]
  simp only [Bool.false_eq_true, if_false]
  rw [if_pos ⟨hlen, heq⟩, if_neg hs]

theorem wfrLoop_reset (page : Nat → Obs) (fuel elapsed lastLen stable : Nat)
    (hlt : elapsed < maxWait)
    (hstop : (page elapsed).stopButton = false)
    (hload : (page elapsed).loading = false)
    (hne : ¬ (0 < (extractLastResponse (page elapsed).strategies).length ∧
              (extractLastResponse (page elapsed).strategies).length = lastLen)) :
    wfrLoop page (fuel + 1) elapsed lastLen stable =
      wfrLoop page fuel (elapsed + pollInterval)
        (extractLastResponse (page elapsed).strategies).length 0 := by
  simp only [wfrLoop, if_pos hlt, hstop, hload]
  simp [hne]

/-- If the page keeps showing, from time e on, no indicator and a fixed
extraction result txt of nonzero length that already matches the recorded
lastTextLength, the loop breaks after exactly the missing stable polls. -/
theorem wfr_stable_run (page : Nat → Obs) (txt : String) :
    ∀ fuel e s,
    (∀ t, e ≤ t → t ≤ e + 500 * (4 - s) →
        (page t).stopButton = false ∧ (page t).loading = false ∧
        extractLastResponse (page t).strategies = txt) →
    0 < txt.length → s ≤ 4 → 5 - s ≤ fuel → e + 500 * (4 - s) < maxWait →
    wfrLoop page fuel e txt.length s = e + 500 * (4 - s) := by
  intro fuel
  induction fuel with
  | zero =>
    intro e s hwin hlen hs4 hfuel hceil
    omega
  | succ f ih =>
    intro e s hwin hlen hs4 hfuel hceil
    have hpi : pollInterval = 500 := rfl
    have hpoll := hwin e (Nat.le_refl e) (Nat.le_add_right e _)
    have hlt : e < maxWait := Nat.lt_of_le_of_lt (Nat.le_add_right e _) hceil
    by_cases hb : stabilityThreshold ≤ s + 1
    · have hs5 : (5 : Nat) ≤ s + 1 := hb
      have hs : s = 4 := by omega
      subst hs
      rw [wfrLoop_break page f e txt.length 4 hlt hpoll.1 hpoll.2.1
        (by rw [hpoll.2.2]; exact hlen) (by rw [hpoll.2.2]) hb]
      simp
    · have hs5 : ¬ (5 : Nat) ≤ s + 1 := hb
      rw [wfrLoop_stable page f e txt.length s hlt hpoll.1 hpoll.2.1
        (by rw [hpoll.2.2]; exact hlen) (by rw [hpoll.2.2]) hb, hpi]
      have hres := ih (e + 500) (s + 1)
        (by
          intro t h1 h2
          exact hwin t (by omega) (by omega))
        hlen (by omega) (by omega) (by omega : e + 500 + 500 * (4 - (s + 1)) < maxWait)
      rw [hres]
      omega

/-- Claim C1 main theorem body, first half: from any loop state, a window
of stable, indicator-free polls of fixed nonzero extraction makes the loop
exit within 2.5 s; second half: on a page that is stable throughout,
waitForResponse exits at 2500 ms (before the ceiling) and, after the 2 s
settle delay, returns the stable text. -/
theorem wfr_stability_exit (page : Nat → Obs) (txt : String) :
    (∀ fuel e lastLen s,
       (∀ t, e ≤ t → t ≤ e + 2500 →
          (page t).stopButton = false ∧ (page t).loading = false ∧
          extractLastResponse (page t).strategies = txt) →
       0 < txt.length → 6 ≤ fuel → e + 2500 < maxWait →
       wfrLoop page fuel e lastLen s ≤ e + 2500 ∧
         wfrLoop page fuel e lastLen s < maxWait)
  ∧ ((∀ t, (page t).stopButton = false ∧ (page t).loading = false ∧
        extractLastResponse (page t).strategies = txt) →
     0 < txt.length →
     wfrExit page ≤ 2500 ∧ wfrExit page < maxWait ∧ waitForResponse page = txt) := by
  have hpi : pollInterval = 500 := rfl
  have main : ∀ fuel e lastLen s,
      (∀ t, e ≤ t → t ≤ e + 2500 →
         (page t).stopButton = false ∧ (page t).loading = false ∧
         extractLastResponse (page t).strategies = txt) →
      0 < txt.length → 6 ≤ fuel → e + 2500 < maxWait →
      wfrLoop page fuel e lastLen s ≤ e + 2500 := by
    intro fuel e lastLen s hwin hlen hfuel hceil
    obtain ⟨f, rfl⟩ : ∃ f, fuel = f + 1 := ⟨fuel - 1, by omega⟩
    have hpoll := hwin e (Nat.le_refl e) (by omega)
    have hlt : e < maxWait := Nat.lt_of_le_of_lt (by omega) hceil
    by_cases hmatch : 0 < (extractLastResponse (page e).strategies).length ∧
        (extractLastResponse (page e).strategies).length = lastLen
    · by_cases hb : stabilityThreshold ≤ s + 1
      · rw [wfrLoop_break page f e lastLen s hlt hpoll.1 hpoll.2.1 hmatch.1 hmatch.2 hb]
        omega
      · have hs5 : ¬ (5 : Nat) ≤ s + 1 := hb
        rw [wfrLoop_stable page f e lastLen s hlt hpoll.1 hpoll.2.1 hmatch.1 hmatch.2 hb,
          hpi]
        have hLL : lastLen = txt.length := by
          rw [hpoll.2.2] at hmatch; omega
        subst hLL
        have hrun := wfr_stable_run page txt f (e + 500) (s + 1)
          (by
            intro t h1 h2
            exact hwin t (by omega) (by omega))
          hlen (by omega) (by omega) (by omega)
        rw [hrun]
        omega
    · rw [wfrLoop_reset page f e lastLen s hlt hpoll.1 hpoll.2.1 hmatch, hpi,
        hpoll.2.2]
      have hrun := wfr_stable_run page txt f (e + 500) 0
        (by
          intro t h1 h2
          exact hwin t (by omega) (by omega))
        hlen (by omega) (by omega) (by omega)
      rw [hrun]
  constructor
  · intro fuel e lastLen s hwin hlen hfuel hceil
    have h := main fuel e lastLen s hwin hlen hfuel hceil
    exact ⟨h, Nat.lt_of_le_of_lt h hceil⟩
  · intro hall hlen
    have h := main wfrFuel 0 0 0
      (fun t _ _ => hall t) hlen (by norm_num [wfrFuel]) (by norm_num [maxWait])
    refine ⟨h, Nat.lt_of_le_of_lt h (by norm_num [maxWait]), ?_⟩
    unfold waitForResponse
    exact (hall (wfrExit page + settleDelay)).2.2

/-- If a generating indicator (stop button or loading element) never
clears, every iteration waits 1000 ms and the loop runs to the ceiling,
exiting at exactly 180 000 ms elapsed. -/
theorem wfr_generating_run (page : Nat → Obs)
    (hgen : ∀ t, (page t).stopButton = true ∨ (page t).loading = true) :
    ∀ fuel e lastLen s, e % 1000 = 0 → e ≤ 180000 → 180000 ≤ e + 1000 * fuel →
    wfrLoop page fuel e lastLen s = 180000 := by
  intro fuel
  induction fuel with
  | zero =>
    intro e lastLen s hmod hle hge
    have he : e = 180000 := by omega
    subst he
    exact wfrLoop_ceiling page 0 180000 lastLen s (Nat.le_refl _)
  | succ f ih =>
    intro e lastLen s hmod hle hge
    by_cases hlt : e < 180000
    · have hgi : generatingInterval = 1000 := rfl
      rw [wfrLoop_generating page f e lastLen s hlt (hgen e), hgi]
      exact ih (e + 1000) lastLen 0 (by omega) (by omega) (by omega)
    · have he : e = 180000 := by omega
      subst he
      exact wfrLoop_ceiling page (f + 1) 180000 lastLen s (Nat.le_refl _)

/-! ### Concrete pages used as witnesses and counterexamples -/

/-- A page on which extraction is constant from the start: no stop button,
no loading indicator, a single strategy returning a fixed long text. -/
def c1Page : Nat → Obs := fun _ => ⟨false, false, [some "stable final answer text"]⟩

/-- A page whose stop button never clears. -/
def stopAlwaysPage : Nat → Obs := fun _ => ⟨true, false, []⟩

/-- A page that shows the stop button only at the very first poll and a
fixed long stable text afterwards. -/
def c3Page : Nat → Obs := fun t =>
  if t = 0 then ⟨true, false, []⟩
  else ⟨false, false, [some "a response that is long enough"]⟩

/-! ### Claims C1, C2, C3 -/

/-- Claim C1: whenever no stop/cancel control and no loading indicator is
present and the extracted candidate text has nonzero length that is
unchanged across 5 consecutive polls, the detector exits its polling loop
within that stability window (2.5 s after its start, before the 180 s
ceiling), and on a page that is stable throughout it performs the final
extraction pass after the fixed 2 s settle delay and returns the stable
text. -/
theorem c1_stable_polls_done (page : Nat → Obs) (txt : String) :
    (∀ fuel e lastLen s,
       (∀ t, e ≤ t → t ≤ e + 2500 →
          (page t).stopButton = false ∧ (page t).loading = false ∧
          extractLastResponse (page t).strategies = txt) →
       0 < txt.length → 6 ≤ fuel → e + 2500 < maxWait →
       wfrLoop page fuel e lastLen s ≤ e + 2500 ∧
         wfrLoop page fuel e lastLen s < maxWait)
  ∧ ((∀ t, (page t).stopButton = false ∧ (page t).loading = false ∧
        extractLastResponse (page t).strategies = txt) →
     0 < txt.length →
     wfrExit page ≤ 2500 ∧ wfrExit page < maxWait ∧ waitForResponse page = txt) :=
  wfr_stability_exit page txt

/-- Witness for C1 at a concrete stable page. -/
theorem c1_stable_polls_done_witness :
    wfrExit c1Page ≤ 2500 ∧ wfrExit c1Page < maxWait ∧
      waitForResponse c1Page = "stable final answer text" := by
  have hx : extractLastResponse [some "stable final answer text"] =
      "stable final answer text" := by decide
  exact (c1_stable_polls_done c1Page "stable final answer text").2
    (fun _ => ⟨rfl, rfl, hx⟩) (by decide)

/-- Claim C2: if a generating indicator never clears, the detector reaches
the 180 s ceiling without error: the loop exits at 180 000 ms elapsed and
the call returns the result of one final extraction pass performed after
the 2 s settle delay (the function is total: it never throws on timeout). -/
theorem c2_timeout_returns (page : Nat → Obs)
    (hgen : ∀ t, (page t).stopButton = true ∨ (page t).loading = true) :
    wfrExit page = maxWait ∧
      waitForResponse page =
        extractLastResponse (page (maxWait + settleDelay)).strategies := by
  have h : wfrExit page = 180000 :=
    wfr_generating_run page hgen wfrFuel 0 0 0 (by norm_num) (by norm_num)
      (by norm_num [wfrFuel])
  refine ⟨h, ?_⟩
  unfold waitForResponse
  rw [h]
  rfl

/-- Witness for C2 at a page whose stop button never clears. -/
theorem c2_timeout_returns_witness :
    wfrExit stopAlwaysPage = maxWait ∧
      waitForResponse stopAlwaysPage = extractionFailureSentinel := by
  have h := c2_timeout_returns stopAlwaysPage (fun _ => Or.inl rfl)
  exact ⟨h.1, h.2.trans (by decide)⟩

/-- Counterexample to claim C3 as stated: the detector does not wait
exactly 500 ms before every re-poll; on a page whose stop button is
visible at the first poll, the first two polls are 1000 ms apart (the
indicator branches wait 1000 ms, lines 253 and 261). -/
theorem c3_counterexample :
    wfrPolls c3Page = [0, 1000, 1500, 2000, 2500, 3000, 3500] ∧
      ¬ List.Chain' (fun a b => b = a + pollInterval) (wfrPolls c3Page) := by
  have h : wfrPolls c3Page = [0, 1000, 1500, 2000, 2500, 3000, 3500] := by decide
  refine ⟨h, ?_⟩
  rw [h]
  intro hch
  have hgap := (List.chain'_cons.mp hch).1
  simp [pollInterval] at hgap

/-- Claim C3 (amended): each iteration of the polling loop that passes the
while guard re-polls after exactly 500 ms only when no stop/cancel control
and no loading indicator is present (and the stability break does not
fire); when such an indicator is present the loop re-polls after 1000 ms. -/
theorem c3_poll_interval (page : Nat → Obs) (fuel elapsed lastLen stable : Nat)
    (hlt : elapsed < maxWait) :
    (((page elapsed).stopButton = true ∨ (page elapsed).loading = true) →
        wfrLoop page (fuel + 1) elapsed lastLen stable =
          wfrLoop page fuel (elapsed + 1000) lastLen 0)
  ∧ ((page elapsed).stopButton = false → (page elapsed).loading = false →
      ¬ (0 < (extractLastResponse (page elapsed).strategies).length ∧
         (extractLastResponse (page elapsed).strategies).length = lastLen ∧
         stabilityThreshold ≤ stable + 1) →
      ∃ L s, wfrLoop page (fuel + 1) elapsed lastLen stable =
          wfrLoop page fuel (elapsed + 500) L s) := by
  constructor
  · intro hgen
    exact wfrLoop_generating page fuel elapsed lastLen stable hlt hgen
  · intro hstop hload hnb
    by_cases hmatch : 0 < (extractLastResponse (page elapsed).strategies).length ∧
        (extractLastResponse (page elapsed).strategies).length = lastLen
    · have hb : ¬ stabilityThreshold ≤ stable + 1 := fun hb =>
        hnb ⟨hmatch.1, hmatch.2, hb⟩
      exact ⟨lastLen, stable + 1,
        wfrLoop_stable page fuel elapsed lastLen stable hlt hstop hload
          hmatch.1 hmatch.2 hb⟩
    · exact ⟨(extractLastResponse (page elapsed).strategies).length, 0,
        wfrLoop_reset page fuel elapsed lastLen stable hlt hstop hload hmatch⟩

/-- Witness for C3 (amended): at the concrete page whose stop button shows
at the first poll, the first iteration re-polls 1000 ms later. -/
theorem c3_poll_interval_witness :
    wfrLoop c3Page 1 0 0 0 = wfrLoop c3Page 0 1000 0 0 :=
  (c3_poll_interval c3Page 0 0 0 0 (by decide)).1 (Or.inl rfl)

/-! ## Interaction driver (gemini-browser.js, sendMessage) -/

/-- Context of one sendMessage call: whether the injection step found an
input element (page.evaluate, lines 157-183), and the page observation
source that waitForResponse polls. -/
structure SendCtx where
  inputFound : Bool
  page : Nat → Obs

/-- sendMessage (lines 148-233): if the injection step reports no input
element, the recorded error is thrown (line 186); otherwise the call
returns the completion detector's text.  The send-trigger step (lines
192-224) cannot fail the call: a missing send button falls back to a
keyboard Enter press. -/
def sendMessage (ctx : SendCtx) : Except String String :=
  if ctx.inputFound = false then Except.error "Could not find input field"
  else Except.ok (waitForResponse ctx.page)

/-- The extraction cascade returns the first winning strategy text, in
list (= priority) order, and the sentinel when no strategy wins. -/
theorem extractLastResponse_eq_find (results : List (Option String)) :
    extractLastResponse results =
      match results.find? strategyWins with
      | some (some t) => t
      | _ => extractionFailureSentinel := by
  induction results with
  | nil => rfl
  | cons r rest ih =>
    match r with
    | none => simpa [extractLastResponse, List.find?, strategyWins] using ih
    | some t =>
      by_cases hw : strategyWins (some t)
      · simp [extractLastResponse, List.find?, hw]
      · simp only [extractLastResponse, if_neg hw, List.find?]
        rw [Bool.of_not_eq_true hw]
        exact ih

/-- The extraction cascade never returns an empty string: a winning text
is longer than 10 characters, and the sentinel is itself nonempty. -/
theorem extractLastResponse_length_pos (results : List (Option String)) :
    0 < (extractLastResponse results).length := by
  rw [extractLastResponse_eq_find]
  cases hf : results.find? strategyWins with
  | none => decide
  | some o =>
    have hwin := List.find?_some hf
    cases o with
    | none => simp [strategyWins] at hwin
    | some t =>
      have hlen : 10 < t.length := by
        have := (Bool.and_eq_true _ _).mp hwin
        exact of_decide_eq_true this.1
      simpa using Nat.lt_trans (by norm_num : (0:Nat) < 10) hlen

/-! ### Claim C4 -/

/-- Claim C4: extraction strategies are tried in priority order and the
first result longer than 10 characters without the stop-phrase boilerplate
wins; when every strategy fails the fixed sentinel is returned and nothing
is raised, so the extraction result is never empty; consequently
sendMessage either raises an error or returns nonempty response text. -/
theorem c4_extraction_policy (results : List (Option String)) (ctx : SendCtx)
    (r : String) :
    (extractLastResponse results =
      match results.find? strategyWins with
      | some (some t) => t
      | _ => extractionFailureSentinel)
  ∧ 0 < (extractLastResponse results).length
  ∧ (sendMessage ctx = Except.ok r → 0 < r.length) := by
  refine ⟨extractLastResponse_eq_find results, extractLastResponse_length_pos results, ?_⟩
  intro hok
  unfold sendMessage at hok
  by_cases hin : ctx.inputFound = false
  · rw [if_pos hin] at hok
    exact absurd hok (by simp)
  · rw [if_neg hin] at hok
    have hr : r = waitForResponse ctx.page := by
      injection hok with h
      exact h.symm
    rw [hr]
    unfold waitForResponse
    exact extractLastResponse_length_pos _

/-- Witness for C4: all strategies failing yields the sentinel, and a
successful sendMessage on a concrete context returns nonempty text. -/
theorem c4_extraction_policy_witness :
    extractLastResponse [] = extractionFailureSentinel ∧
      0 < (waitForResponse c1Page).length :=
  ⟨(c4_extraction_policy [] ⟨true, c1Page⟩ (waitForResponse c1Page)).1,
   (c4_extraction_policy [] ⟨true, c1Page⟩ (waitForResponse c1Page)).2.2 rfl⟩

/-! ## Readiness detection (gemini-browser.js, waitForReady) -/

/-- The input-element selector variants, in priority order (lines 104-108). -/
def readySelectors : List String :=
  ["div[contenteditable=\"true\"]", "rich-textarea",
   "[aria-label=\"Enter a prompt here\"]"]

/-- The selector loop of waitForReady (lines 110-120): try each variant in
order (present s models that page.waitForSelector resolves within the
per-variant 5 s timeout), succeed on the first match, otherwise throw. -/
def tryReadySelectors (present : String → Bool) : List String → Except String String
  | [] => Except.error "Could not find prompt input"
  | s :: rest => if present s then Except.ok s else tryReadySelectors present rest

/-- waitForReady (lines 103-121). -/
def waitForReady (present : String → Bool) : Except String String :=
  tryReadySelectors present readySelectors

theorem tryReadySelectors_ok (present : String → Bool) :
    ∀ (l : List String) (s : String), tryReadySelectors present l = Except.ok s →
      present s = true ∧
        ∃ pre post, l = pre ++ s :: post ∧ ∀ x ∈ pre, present x = false := by
  intro l
  induction l with
  | nil => intro s h; exact absurd h (by simp [tryReadySelectors])
  | cons a rest ih =>
    intro s h
    by_cases hp : present a
    · rw [tryReadySelectors, if_pos hp] at h
      injection h with h
      subst h
      exact ⟨hp, [], rest, rfl, by simp⟩
    · rw [tryReadySelectors, if_neg hp] at h
      obtain ⟨hps, pre, post, hl, hpre⟩ := ih s h
      refine ⟨hps, a :: pre, post, by rw [hl]; simp, ?_⟩
      intro x hx
      rcases List.mem_cons.mp hx with rfl | hx
      · exact Bool.of_not_eq_true hp
      · exact hpre x hx

theorem tryReadySelectors_error (present : String → Bool) :
    ∀ l : List String,
      (tryReadySelectors present l = Except.error "Could not find prompt input" ↔
        ∀ s ∈ l, present s = false) := by
  intro l
  induction l with
  | nil => simp [tryReadySelectors]
  | cons a rest ih =>
    by_cases hp : present a
    · rw [tryReadySelectors, if_pos hp]
      simp [hp]
    · rw [tryReadySelectors, if_neg hp]
      rw [ih]
      constructor
      · intro h s hs
        rcases List.mem_cons.mp hs with rfl | hs
        · exact Bool.of_not_eq_true hp
        · exact h s hs
      · intro h s hs
        exact h s (List.mem_cons_of_mem a hs)

/-! ### Claim C5 -/

/-- Claim C5: waitForReady tries the known selector variants in fixed
priority order, succeeds on the first variant that matches, and fails
with the no-prompt-input error exactly when none of the variants match. -/
theorem c5_ready_detection (present : String → Bool) :
    (∀ s, waitForReady present = Except.ok s →
      present s = true ∧
        ∃ pre post, readySelectors = pre ++ s :: post ∧
          ∀ x ∈ pre, present x = false)
  ∧ (waitForReady present = Except.error "Could not find prompt input" ↔
      ∀ s ∈ readySelectors, present s = false) :=
  ⟨fun s h => tryReadySelectors_ok present readySelectors s h,
   tryReadySelectors_error present readySelectors⟩

/-- A page exposing only the second selector variant. -/
def c5Present : String → Bool := fun s => s == "rich-textarea"

/-- Witness for C5: on a page exposing only the rich-textarea variant,
waitForReady succeeds on it, skipping exactly the earlier variant. -/
theorem c5_ready_detection_witness :
    c5Present "rich-textarea" = true ∧
      ∃ pre post, readySelectors = pre ++ "rich-textarea" :: post ∧
        ∀ x ∈ pre, c5Present x = false :=
  (c5_ready_detection c5Present).1 "rich-textarea" (by rfl)

/-! ## JSON values and JSON.parse

The /discuss-v2 handler (server.js lines 374-395) extracts a JSON object
from the split response with a regex and feeds it to the runtime's
JSON.parse.  The model below implements the relevant ECMAScript JSON
grammar; all recursion is structural (with fuel for nesting) so concrete
inputs evaluate inside the kernel. -/

inductive JValue where
  | null
  | bool (b : Bool)
  | num (raw : String)
  | str (s : String)
  | arr (elems : List JValue)
  | obj (fields : List (String × JValue))

/-- The opening-brace character, written by code point. -/
def lbrace : Char := Char.ofNat 123

/-- The closing-brace character, written by code point. -/
def rbrace : Char := Char.ofNat 125

def quoteChar : Char := '"'

def backslashChar : Char := '\\'

def isJsonWs (c : Char) : Bool := c == ' ' || c == '\t' || c == '\n' || c == '\r'

def skipWs : List Char → List Char
  | [] => []
  | c :: cs => if isJsonWs c then skipWs cs else c :: cs

def hexVal (c : Char) : Option Nat :=
  if '0' ≤ c ∧ c ≤ '9' then some (c.toNat - 48)
  else if 'a' ≤ c ∧ c ≤ 'f' then some (c.toNat - 87)
  else if 'A' ≤ c ∧ c ≤ 'F' then some (c.toNat - 55)
  else none

/-- Body of a JSON string literal, after its opening quote; acc holds the
decoded characters in reverse. -/
def parseStrChars : List Char → List Char → Except Unit (String × List Char)
  | [], _acc => Except.error ()
  | c :: rest, acc =>
    if c = quoteChar then Except.ok (String.mk acc.reverse, rest)
    else if c = backslashChar then
      match rest with
      | [] => Except.error ()
      | e :: r2 =>
        if e = quoteChar then parseStrChars r2 (quoteChar :: acc)
        else if e = backslashChar then parseStrChars r2 (backslashChar :: acc)
        else if e = '/' then parseStrChars r2 ('/' :: acc)
        else if e = 'b' then parseStrChars r2 (Char.ofNat 8 :: acc)
        else if e = 'f' then parseStrChars r2 (Char.ofNat 12 :: acc)
        else if e = 'n' then parseStrChars r2 ('\n' :: acc)
        else if e = 'r' then parseStrChars r2 (Char.ofNat 13 :: acc)
        else if e = 't' then parseStrChars r2 ('\t' :: acc)
        else if e = 'u' then
          match r2 with
          | h1 :: h2 :: h3 :: h4 :: r3 =>
            match hexVal h1, hexVal h2, hexVal h3, hexVal h4 with
            | some a, some b, some c2, some d =>
              parseStrChars r3 (Char.ofNat (4096 * a + 256 * b + 16 * c2 + d) :: acc)
            | _, _, _, _ => Except.error ()
          | _ => Except.error ()
        else Except.error ()
    else if c.toNat < 32 then Except.error ()
    else parseStrChars rest (c :: acc)

def isDigit (c : Char) : Bool := '0' ≤ c && c ≤ '9'

def spanDigits : List Char → (List Char × List Char)
  | [] => ([], [])
  | c :: rest =>
    if isDigit c then
      let p := spanDigits rest
      (c :: p.1, p.2)
    else ([], c :: rest)

def parseFrac (cs : List Char) : Except Unit (List Char × List Char) :=
  match cs with
  | c :: r =>
    if c = '.' then
      match spanDigits r with
      | ([], _) => Except.error ()
      | (ds, r2) => Except.ok (c :: ds, r2)
    else Except.ok ([], cs)
  | [] => Except.ok ([], cs)

def parseExp (cs : List Char) : Except Unit (List Char × List Char) :=
  match cs with
  | c :: r =>
    if c = 'e' ∨ c = 'E' then
      let p :=
        match r with
        | s :: r2 => if s = '+' ∨ s = '-' then (([s] : List Char), r2) else ([], r)
        | [] => ([], r)
      match spanDigits p.2 with
      | ([], _) => Except.error ()
      | (ds, r2) => Except.ok (c :: (p.1 ++ ds), r2)
    else Except.ok ([], cs)
  | [] => Except.ok ([], cs)

def parseNum (cs : List Char) : Except Unit (JValue × List Char) :=
  let p :=
    match cs with
    | c :: r => if c = '-' then (([c] : List Char), r) else ([], cs)
    | [] => ([], cs)
  match spanDigits p.2 with
  | ([], _) => Except.error ()
  | (ds, cs2) =>
    if 1 < ds.length ∧ ds.headD '0' = '0' then Except.error ()
    else
      match parseFrac cs2 with
      | Except.error _ => Except.error ()
      | Except.ok (fr, cs3) =>
        match parseExp cs3 with
        | Except.error _ => Except.error ()
        | Except.ok (ex, cs4) =>
          Except.ok (JValue.num (String.mk (p.1 ++ ds ++ fr ++ ex)), cs4)

def expectChars : List Char → List Char → Option (List Char)
  | [], cs => some cs
  | _ :: _, [] => none
  | k :: ks, c :: cs => if c = k then expectChars ks cs else none

mutual

/-- JSON value (fuel bounds nesting; every recursive step consumes at
least one character, so the top-level fuel is never exhausted). -/
def parseVal : Nat → List Char → Except Unit (JValue × List Char)
  | 0, _ => Except.error ()
  | fuel + 1, cs =>
    match skipWs cs with
    | [] => Except.error ()
    | c :: rest =>
      if c = lbrace then
        match skipWs rest with
        | c2 :: r2 =>
          if c2 = rbrace then Except.ok (JValue.obj [], r2)
          else parseMembers fuel (c2 :: r2) []
        | [] => Except.error ()
      else if c = '[' then
        match skipWs rest with
        | c2 :: r2 =>
          if c2 = ']' then Except.ok (JValue.arr [], r2)
          else parseElems fuel (c2 :: r2) []
        | [] => Except.error ()
      else if c = quoteChar then
        match parseStrChars rest [] with
        | Except.error _ => Except.error ()
        | Except.ok (s, r) => Except.ok (JValue.str s, r)
      else if c = 't' then
        match expectChars ("rue".toList) rest with
        | some r => Except.ok (JValue.bool true, r)
        | none => Except.error ()
      else if c = 'f' then
        match expectChars ("alse".toList) rest with
        | some r => Except.ok (JValue.bool false, r)
        | none => Except.error ()
      else if c = 'n' then
        match expectChars ("ull".toList) rest with
        | some r => Except.ok (JValue.null, r)
        | none => Except.error ()
      else parseNum (c :: rest)

/-- Members of a JSON object, called just after an opening brace known
not to be immediately closed, or after a comma. -/
def parseMembers : Nat → List Char → List (String × JValue) →
    Except Unit (JValue × List Char)
  | 0, _, _ => Except.error ()
  | fuel + 1, cs, acc =>
    match skipWs cs with
    | c :: rest =>
      if c = quoteChar then
        match parseStrChars rest [] with
        | Except.error _ => Except.error ()
        | Except.ok (key, r1) =>
          match skipWs r1 with
          | c2 :: r2 =>
            if c2 = ':' then
              match parseVal fuel r2 with
              | Except.error _ => Except.error ()
              | Except.ok (v, r3) =>
                match skipWs r3 with
                | c3 :: r4 =>
                  if c3 = ',' then parseMembers fuel r4 (acc ++ [(key, v)])
                  else if c3 = rbrace then
                    Except.ok (JValue.obj (acc ++ [(key, v)]), r4)
                  else Except.error ()
                | [] => Except.error ()
            else Except.error ()
          | [] => Except.error ()
      else Except.error ()
    | [] => Except.error ()

/-- Elements of a JSON array, called just after an opening bracket known
not to be immediately closed, or after a comma. -/
def parseElems : Nat → List Char → List JValue → Except Unit (JValue × List Char)
  | 0, _, _ => Except.error ()
  | fuel + 1, cs, acc =>
    match parseVal fuel cs with
    | Except.error _ => Except.error ()
    | Except.ok (v, r1) =>
      match skipWs r1 with
      | c :: r2 =>
        if c = ',' then parseElems fuel r2 (acc ++ [v])
        else if c = ']' then Except.ok (JValue.arr (acc ++ [v]), r2)
        else Except.error ()
      | [] => Except.error ()

end

/-- JSON.parse: parse one value and require only whitespace to remain. -/
def jsonParse (s : String) : Except Unit JValue :=
  match parseVal (2 * s.length + 2) s.toList with
  | Except.error _ => Except.error ()
  | Except.ok (v, rest) =>
    match skipWs rest with
    | [] => Except.ok v
    | _ :: _ => Except.error ()

/-- JavaScript property access v.subtasks on a parsed JSON value: defined
only on objects; with duplicate keys JSON.parse keeps the last. -/
def jsField (v : JValue) (key : String) : Option JValue :=
  match v with
  | JValue.obj fs => (fs.reverse).lookup key
  | _ => none

/-! ## The subtasks regex (server.js line 377)

The pattern is: opening brace, any characters, the quoted literal
subtasks, any characters, closing brace.  JavaScript regex semantics:
the match starts at the leftmost position from which the pattern can
succeed (necessarily an opening brace); both wildcard gaps are greedy,
so the match extends to the last closing brace compatible with the
latest possible occurrence of the quoted literal. -/

/-- The 10-character literal of the pattern: quote, subtasks, quote. -/
def subtasksPat : List Char := quoteChar :: ("subtasks".toList ++ [quoteChar])

/-- First match of the subtasks regex in s, as a substring, or none. -/
def jsMatchSubtasks (s : String) : Option String :=
  let cs := s.toList
  let n := cs.length
  let qAll := (List.range n).filter (fun q => subtasksPat.isPrefixOf (cs.drop q))
  let rAll := (List.range n).filter (fun r => decide (cs.getD r ' ' = rbrace))
  let qGood := fun p => qAll.filter (fun q =>
    decide (p + 1 ≤ q) && rAll.any (fun r => decide (q + 10 ≤ r)))
  let starts := (List.range n).filter (fun p =>
    decide (cs.getD p ' ' = lbrace) && !(qGood p).isEmpty)
  match starts.head? with
  | none => none
  | some p =>
    match (qGood p).getLast? with
    | none => none
    | some q =>
      match (rAll.filter (fun r => decide (q + 10 ≤ r))).getLast? with
      | none => none
      | some r => some (String.mk ((cs.drop p).take (r + 1 - p)))

/-- The default 3-item decomposition substituted on parse failure
(server.js lines 382-386 and 390-394). -/
def defaultSubtasks : List JValue :=
  [JValue.obj [("id", JValue.num "1"),
    ("task", JValue.str "从技术可行性角度分析"), ("focus", JValue.str "技术")],
   JValue.obj [("id", JValue.num "2"),
    ("task", JValue.str "从实际应用角度分析"), ("focus", JValue.str "应用")],
   JValue.obj [("id", JValue.num "3"),
    ("task", JValue.str "从潜在风险角度分析"), ("focus", JValue.str "风险")]]

/-- JSON.parse of the regex match inside the try/catch, then the
.subtasks property read: parse failure falls back to the default; a
missing or non-array property value means the later subtasks.map call
crashes (none). -/
def subtasksOfMatch (m : String) : Option (List JValue) :=
  match jsonParse m with
  | Except.error _ => some defaultSubtasks
  | Except.ok v =>
    match jsField v "subtasks" with
    | some (JValue.arr l) => some l
    | _ => none

/-- Phase-1 subtasks extraction of /discuss-v2 (server.js lines 374-395):
locate the regex match; if there is none, or JSON.parse of it throws, the
default decomposition is substituted inside the try/catch.  A successful
parse leaves subtasks as the value of the .subtasks property: when that
value is an array, execution proceeds with it (some); when it is missing
or not an array (undefined, a number, a string, an object), the later
subtasks.map call at line 411 throws a TypeError that only the outer
500 handler catches: the request aborts (none). -/
def jsSubtasks (raw : String) : Option (List JValue) :=
  match jsMatchSubtasks raw with
  | none => some defaultSubtasks
  | some m => subtasksOfMatch m

/-! ## Serial discussion protocol (server.js, /discuss handler)

browser.sendMessage is modelled by an oracle mapping (prompt, account) to
the outcome of that send in the run under consideration. -/

/-- Outcome oracle for browser.sendMessage calls. -/
abbrev Send := String → String → Except String String

/-- One turn of the serial discussion (pushed at lines 289-295/305-311). -/
structure Turn where
  round : Nat
  account : String
  name : String
  role : String
  response : String

/-- The fixed participant panel (server.js lines 239-243). -/
structure Role where
  account : String
  name : String
  role : String

def discussRoles : List Role :=
  [⟨"1", "专家A", "分析师 - 负责分析问题和提供初步思路"⟩,
   ⟨"2", "专家B", "评审员 - 负责评估和改进方案"⟩,
   ⟨"3", "专家C", "总结者 - 负责整合意见给出最终答案"⟩]

/-- Prompt of the very first turn (line 276). -/
def firstPrompt (name role question : String) : String :=
  "你是" ++ name ++ "(" ++ role ++ ")。请就以下问题给出你的分析和见解：\n\n问题: " ++
    question ++ "\n\n请给出你的专业分析。"

/-- Prompt of the last participant of the last round (lines 278-279). -/
def finalPrompt (name role question prevResponses : String) : String :=
  "你是" ++ name ++ "(" ++ role ++ ")。以下是其他专家的讨论：\n\n" ++ prevResponses ++
    "\n\n原始问题是: " ++ question ++ "\n\n请综合所有意见，给出最终的、可执行的答案。"

/-- Prompt of every other turn (lines 281-282). -/
def middlePrompt (name role question lastName lastResponse : String) : String :=
  "你是" ++ name ++ "(" ++ role ++ ")。\n\n原始问题: " ++ question ++
    "\n\n上一位专家(" ++ lastName ++ ")的观点:\n" ++ lastResponse ++
    "\n\n请评估这个观点，提出改进建议或补充你的专业见解。"

/-- The prompt chosen for participant index i of round round, given the
turns so far (lines 275-283).  The middle/final branches read the last
one or two prior turns; they are only reached with a nonempty history, so
the defaulted access mirrors the code. -/
def turnPrompt (question : String) (rounds : Nat) (discussion : List Turn)
    (round i : Nat) (r : Role) : String :=
  if round = 0 ∧ i = 0 then firstPrompt r.name r.role question
  else if i = discussRoles.length - 1 ∧ round = rounds - 1 then
    finalPrompt r.name r.role question
      (String.intercalate "\n\n"
        ((discussion.drop (discussion.length - 2)).map
          (fun d => d.name ++ ": " ++ d.response)))
  else
    let last := discussion.getLastD ⟨0, "", "", "", ""⟩
    middlePrompt r.name r.role question last.name last.response

/-- One turn: send the prompt; a failed send is caught and recorded as a
bracketed in-band failure marker (lines 287-312). -/
def runTurn (send : Send) (question : String) (rounds : Nat)
    (discussion : List Turn) (round i : Nat) (r : Role) : Turn :=
  match send (turnPrompt question rounds discussion round i r) r.account with
  | Except.ok resp => ⟨round + 1, r.account, r.name, r.role, resp⟩
  | Except.error e => ⟨round + 1, r.account, r.name, r.role, "[发言失败: " ++ e ++ "]"⟩

/-- The inner participant loop of one round (lines 271-313). -/
def discussRound (send : Send) (question : String) (rounds round : Nat) :
    List Turn → Nat → List Role → List Turn
  | disc, _i, [] => disc
  | disc, i, r :: rest =>
    discussRound send question rounds round
      (disc ++ [runTurn send question rounds disc round i r]) (i + 1) rest

/-- The outer round loop (line 268); the first argument counts remaining
rounds, the second is the current round index. -/
def discussGo (send : Send) (question : String) (rounds : Nat) :
    Nat → Nat → List Turn → List Turn
  | 0, _round, disc => disc
  | k + 1, round, disc =>
    discussGo send question rounds k (round + 1)
      (discussRound send question rounds round disc 0 discussRoles)

/-- The /discuss handler's discussion accumulation (without persistence;
the model runs with no roomId, for which the handler skips every save). -/
def serialDiscuss (send : Send) (question : String) (rounds : Nat) : List Turn :=
  discussGo send question rounds rounds 0 []

/-! ## Parallel discussion protocol (server.js, /discuss-v2 handler) -/

/-- The fixed participant accounts of /discuss-v2 (line 346). -/
def v2Accounts : List String := ["1", "2", "3"]

/-- The phase-1 split prompt (lines 358-369). -/
def splitPrompt (question : String) : String :=
  "作为任务规划者，请将以下问题拆分成3个独立的子任务，每个子任务应该从不同角度分析问题。\n\n问题: " ++
    question ++
    "\n\n请严格按以下JSON格式输出，不要有其他内容:\n\x7b\n  \"subtasks\": [\n    \x7b\"id\": 1, \"task\": \"子任务1的描述\", \"focus\": \"关注点1\"\x7d,\n    \x7b\"id\": 2, \"task\": \"子任务2的描述\", \"focus\": \"关注点2\"\x7d,\n    \x7b\"id\": 3, \"task\": \"子任务3的描述\", \"focus\": \"关注点3\"\x7d\n  ]\n\x7d"

mutual

/-- JavaScript template-literal stringification of a parsed JSON value
(numbers keep their lexeme; arrays join elements with commas). -/
def jsToString : JValue → String
  | JValue.null => "null"
  | JValue.bool b => if b then "true" else "false"
  | JValue.num raw => raw
  | JValue.str s => s
  | JValue.arr l => String.intercalate "," (jsToStringList l)
  | JValue.obj _ => "[object Object]"

/-- Template stringification of a list of values. -/
def jsToStringList : List JValue → List String
  | [] => []
  | v :: rest => jsToString v :: jsToStringList rest

end

/-- Template interpolation of a possibly-undefined property. -/
def jsTemplate : Option JValue → String
  | some v => jsToString v
  | none => "undefined"

/-- Result of one phase-2 parallel execution slot (lines 422-428). -/
structure ExecResult where
  account : String
  subtask : JValue
  response : String

/-- The phase-2 prompt for slot i (lines 413-419). -/
def execPrompt (question : String) (i : Nat) (st : JValue) : String :=
  "你是专家" ++ toString (i + 1) ++ "，专注于\"" ++ jsTemplate (jsField st "focus") ++
    "\"方面。\n\n原始问题: " ++ question ++ "\n\n你的子任务: " ++
    jsTemplate (jsField st "task") ++ "\n\n请针对你的子任务给出详细、专业的分析和建议。"

/-- One phase-2 slot: the send is performed with a per-slot catch that
replaces a failure with the bracketed marker (lines 422-428). -/
def execOne (send : Send) (question : String) (p : Nat × JValue) : ExecResult :=
  let account := v2Accounts.getD p.1 "undefined"
  match send (execPrompt question p.1 p.2) account with
  | Except.ok r => ⟨account, p.2, r⟩
  | Except.error e => ⟨account, p.2, "[执行失败: " ++ e ++ "]"⟩

/-- Phase 2: one send per subtask, all slots always produced
(Promise.all over individually-caught promises, lines 411-431). -/
def phase2Exec (send : Send) (question : String) (sts : List JValue) :
    List ExecResult :=
  sts.enum.map (execOne send question)

/-- Result of one phase-3 review slot (lines 476-482). -/
structure ReviewResult where
  reviewer : String
  targetAgent : String
  review : String

/-- The phase-3 review prompt (lines 461-473). -/
def reviewPrompt (question targetAgent targetResponse : String) : String :=
  "作为评审专家，请评估以下专家" ++ targetAgent ++ "的分析：\n\n原始问题: " ++ question ++
    "\n\n专家" ++ targetAgent ++ "的分析:\n" ++ targetResponse ++
    "\n\n请从以下角度进行评审：\n1. 分析的准确性和完整性\n2. 是否有遗漏的重要观点\n3. 具体的改进建议\n\n请给出简洁的评审意见。"

/-- One phase-3 slot with its per-slot catch (lines 475-482). -/
def reviewOne (send : Send) (question : String)
    (a : String × ExecResult × String) : ReviewResult :=
  match send (reviewPrompt question a.2.2 a.2.1.response) a.1 with
  | Except.ok r => ⟨a.1, a.2.2, r⟩
  | Except.error e => ⟨a.1, a.2.2, "[评审失败: " ++ e ++ "]"⟩

/-- Phase 3: the fixed cyclic review assignment 1→2, 2→3, 3→1
(lines 454-458); reaching it requires three phase-2 results. -/
def phase3Review (send : Send) (question : String) (exec : List ExecResult) :
    List ReviewResult :=
  let dummy : ExecResult := ⟨"", JValue.null, ""⟩
  [reviewOne send question ("1", exec.getD 1 dummy, "2"),
   reviewOne send question ("2", exec.getD 2 dummy, "3"),
   reviewOne send question ("3", exec.getD 0 dummy, "1")]

/-- The phase-4 summary prompt (lines 505-526). -/
def summaryPrompt (question execSummary reviewSummary : String) : String :=
  "作为总结专家，请综合以下所有分析和评审，给出一个完整、全面的最终答案。\n\n原始问题: " ++
    question ++ "\n\n== 各专家的分析 ==\n" ++ execSummary ++
    "\n\n== 交叉评审意见 ==\n" ++ reviewSummary ++
    "\n\n请综合以上所有信息，给出：\n1. 问题的完整答案\n2. 关键要点总结\n3. 实践建议"

/-- The labelled concatenation of phase-2 outputs (lines 505-507). -/
def execSummaryOf (exec : List ExecResult) : String :=
  String.intercalate "\n\n" (exec.map (fun r => "【专家" ++ r.account ++ "的分析】\n" ++ r.response))

/-- The labelled concatenation of phase-3 reviews (lines 509-511). -/
def reviewSummaryOf (reviews : List ReviewResult) : String :=
  String.intercalate "\n\n"
    (reviews.map (fun r => "【专家" ++ r.reviewer ++ "对专家" ++ r.targetAgent ++ "的评审】\n" ++ r.review))

/-- The summary prompt a given run will use, as a function of the split
result (used to phrase oracle hypotheses). -/
def v2SummaryPrompt (send : Send) (question : String) (sts : List JValue) : String :=
  let exec := phase2Exec send question sts
  summaryPrompt question (execSummaryOf exec)
    (reviewSummaryOf (phase3Review send question exec))

/-- One recorded phase of the /discuss-v2 response payload. -/
inductive PhaseResult where
  | split (subtasks : List JValue) (rawResponse : String)
  | execute (results : List ExecResult)
  | review (results : List ReviewResult)
  | summarize (finalAnswer : String)

/-- The /discuss-v2 response payload. -/
structure V2Result where
  phases : List PhaseResult
  finalAnswer : String

/-- Phases 2-4 of /discuss-v2, given the subtasks list that phase 1
produced.  Fewer than three phase-2 results would make the fixed review
assignment read an undefined slot and crash into the outer handler. -/
def discussV2WithSubtasks (send : Send) (question splitResponse : String)
    (sts : List JValue) : Except String V2Result :=
  let exec := phase2Exec send question sts
  if exec.length < 3 then
    Except.error "TypeError: cannot read properties of undefined"
  else
    let reviews := phase3Review send question exec
    match send (summaryPrompt question (execSummaryOf exec)
        (reviewSummaryOf reviews)) "1" with
    | Except.error e => Except.error e
    | Except.ok finalAnswer =>
      Except.ok ⟨[PhaseResult.split sts splitResponse,
                  PhaseResult.execute exec,
                  PhaseResult.review reviews,
                  PhaseResult.summarize finalAnswer], finalAnswer⟩

/-- The continuation of /discuss-v2 after the split send succeeded. -/
def discussV2AfterSplit (send : Send) (question splitResponse : String) :
    Except String V2Result :=
  match jsSubtasks splitResponse with
  | none => Except.error "TypeError: subtasks.map is not a function"
  | some sts => discussV2WithSubtasks send question splitResponse sts

/-- The /discuss-v2 handler (lines 336-560), without persistence (the
model runs with no roomId).  An uncaught error — a failed split send, a
non-array subtasks value reaching the phase-2 map, fewer than three
phase-2 results reaching the fixed review assignment, or a failed
phase-4 send — aborts the request via the outer 500 handler. -/
def discussV2 (send : Send) (question : String) : Except String V2Result :=
  match send (splitPrompt question) "1" with
  | Except.error e => Except.error e
  | Except.ok splitResponse => discussV2AfterSplit send question splitResponse

/-! ### Lemmas about the serial protocol -/

/-- A recorded turn is either a caught failure marker or the verbatim
result of a successful send on that turn's account. -/
def TurnOk (send : Send) (t : Turn) : Prop :=
  (∃ e, t.response = "[发言失败: " ++ e ++ "]") ∨
    ∃ p, send p t.account = Except.ok t.response

theorem runTurn_ok (send : Send) (question : String) (rounds : Nat)
    (disc : List Turn) (round i : Nat) (r : Role) :
    TurnOk send (runTurn send question rounds disc round i r) := by
  unfold TurnOk runTurn
  cases h : send (turnPrompt question rounds disc round i r) r.account with
  | ok resp => exact Or.inr ⟨_, h⟩
  | error e => exact Or.inl ⟨e, rfl⟩

theorem discussRound_length (send : Send) (question : String) (rounds round : Nat) :
    ∀ (roles : List Role) (disc : List Turn) (i : Nat),
      (discussRound send question rounds round disc i roles).length =
        disc.length + roles.length := by
  intro roles
  induction roles with
  | nil => intro disc i; simp [discussRound]
  | cons r rest ih =>
    intro disc i
    rw [discussRound, ih]
    simp only [List.length_append, List.length_cons, List.length_nil]
    omega

theorem discussRound_ok (send : Send) (question : String) (rounds round : Nat) :
    ∀ (roles : List Role) (disc : List Turn) (i : Nat),
      (∀ t ∈ disc, TurnOk send t) →
      ∀ t ∈ discussRound send question rounds round disc i roles, TurnOk send t := by
  intro roles
  induction roles with
  | nil => intro disc i h t ht; exact h t ht
  | cons r rest ih =>
    intro disc i h t ht
    refine ih _ _ ?_ t ht
    intro u hu
    rcases List.mem_append.mp hu with hu | hu
    · exact h u hu
    · rw [List.mem_singleton.mp hu]
      exact runTurn_ok send question rounds disc round i r

theorem discussGo_length (send : Send) (question : String) (rounds : Nat) :
    ∀ (k round : Nat) (disc : List Turn),
      (discussGo send question rounds k round disc).length = disc.length + 3 * k := by
  intro k
  induction k with
  | zero => intro round disc; simp [discussGo]
  | succ n ih =>
    intro round disc
    rw [discussGo, ih, discussRound_length]
    have h3 : discussRoles.length = 3 := rfl
    rw [h3]
    omega

theorem discussGo_ok (send : Send) (question : String) (rounds : Nat) :
    ∀ (k round : Nat) (disc : List Turn),
      (∀ t ∈ disc, TurnOk send t) →
      ∀ t ∈ discussGo send question rounds k round disc, TurnOk send t := by
  intro k
  induction k with
  | zero => intro round disc h t ht; exact h t ht
  | succ n ih =>
    intro round disc h t ht
    exact ih _ _ (discussRound_ok send question rounds round discussRoles disc 0 h) t ht

/-! ### Lemmas about the parallel protocol -/

theorem phase2Exec_ok (send : Send) (question : String) (sts : List JValue) :
    ∀ er ∈ phase2Exec send question sts,
      (∃ e, er.response = "[执行失败: " ++ e ++ "]") ∨
        ∃ p, send p er.account = Except.ok er.response := by
  intro er her
  unfold phase2Exec at her
  rcases List.mem_map.mp her with ⟨p, _hp, rfl⟩
  simp only [execOne]
  cases h : send (execPrompt question p.1 p.2) (v2Accounts.getD p.1 "undefined") with
  | ok r => exact Or.inr ⟨_, h⟩
  | error e => exact Or.inl ⟨e, rfl⟩

theorem phase2Exec_length (send : Send) (question : String) (sts : List JValue) :
    (phase2Exec send question sts).length = sts.length := by
  simp [phase2Exec]

/-! ### Claim C6 -/

/-- Claim C6: in both discussion protocols a participant send that raises
is caught per participant and replaced by an in-band bracketed failure
marker, and the protocol continues: the serial protocol always produces
3 turns per round whatever the send outcomes, every turn is either a
marker or a successful send result, every phase-2 slot of the parallel
protocol is likewise a marker or a successful result, and when the
non-parallel sends (split and summary) succeed the parallel discussion
completes all 4 phases regardless of phase-2/phase-3 send failures. -/
theorem c6_partial_failure_isolation (send : Send) (question : String)
    (rounds : Nat) (raw fa : String) (sts : List JValue) :
    ((serialDiscuss send question rounds).length = 3 * rounds)
  ∧ (∀ t ∈ serialDiscuss send question rounds, TurnOk send t)
  ∧ (∀ er ∈ phase2Exec send question sts,
       (∃ e, er.response = "[执行失败: " ++ e ++ "]") ∨
         ∃ p, send p er.account = Except.ok er.response)
  ∧ (send (splitPrompt question) "1" = Except.ok raw →
     jsSubtasks raw = some sts →
     sts.length = 3 →
     send (v2SummaryPrompt send question sts) "1" = Except.ok fa →
     ∃ res, discussV2 send question = Except.ok res ∧
       res.phases.length = 4 ∧
       res.phases.get? 1 =
         some (PhaseResult.execute (phase2Exec send question sts))) := by
  refine ⟨?_, ?_, phase2Exec_ok send question sts, ?_⟩
  · unfold serialDiscuss
    rw [discussGo_length]
    simp
  · intro t ht
    exact discussGo_ok send question rounds rounds 0 [] (by simp) t ht
  · intro hsplit hsub hlen hsum
    have h1 : discussV2 send question = discussV2AfterSplit send question raw := by
      unfold discussV2; rw [hsplit]
    have h2 : discussV2AfterSplit send question raw =
        discussV2WithSubtasks send question raw sts := by
      unfold discussV2AfterSplit; rw [hsub]
    have hsum2 : send (summaryPrompt question
        (execSummaryOf (phase2Exec send question sts))
        (reviewSummaryOf (phase3Review send question
          (phase2Exec send question sts)))) "1" = Except.ok fa := hsum
    have h3 : discussV2WithSubtasks send question raw sts =
        Except.ok ⟨[PhaseResult.split sts raw,
                    PhaseResult.execute (phase2Exec send question sts),
                    PhaseResult.review (phase3Review send question
                      (phase2Exec send question sts)),
                    PhaseResult.summarize fa], fa⟩ := by
      simp only [discussV2WithSubtasks]
      rw [if_neg (by rw [phase2Exec_length, hlen]; omega)]
      rw [hsum2]
    exact ⟨_, (h1.trans h2).trans h3, rfl, rfl⟩

/-- The split response used by the C6 witness oracle. -/
def c6Raw : String := "\x7b\"subtasks\": [1, 2, 3]\x7d"

/-- Subtasks parsed from the C6 witness split response. -/
def c6Sts : List JValue := [JValue.num "1", JValue.num "2", JValue.num "3"]

/-- A send oracle on which every send to account 2 fails and all other
sends return the fixed split response. -/
def c6Send : Send := fun _p a =>
  if a = "2" then Except.error "boom" else Except.ok c6Raw

/-- Witness for C6: on the concrete oracle where account 2 always fails,
the serial protocol still records 3 turns for one round, and the parallel
protocol completes all 4 phases with slot 2 replaced by its marker. -/
theorem c6_partial_failure_isolation_witness :
    ((serialDiscuss c6Send "q" 1).length = 3 * 1) ∧
      ∃ res, discussV2 c6Send "q" = Except.ok res ∧
        res.phases.length = 4 ∧
        res.phases.get? 1 = some (PhaseResult.execute (phase2Exec c6Send "q" c6Sts)) :=
  ⟨(c6_partial_failure_isolation c6Send "q" 1 c6Raw c6Raw c6Sts).1,
   (c6_partial_failure_isolation c6Send "q" 1 c6Raw c6Raw c6Sts).2.2.2
     rfl rfl rfl rfl⟩

/-! ### Claim C7 -/

/-- Counterexample input to claim C7 as stated: a split response that is
itself a valid JSON object matching the regex (its string value contains
the quoted subtasks literal) but contains no subtasks key anywhere. -/
def c7CexRaw : String := "\x7b\"a\": \"subtasks\"\x7d"

/-- A send oracle whose every send returns the C7 counterexample text. -/
def c7CexSend : Send := fun _p _a => Except.ok c7CexRaw

/-- Counterexample to claim C7 as stated: on this raw response no JSON
object containing a subtasks key exists (the regex match parses to an
object whose only key is a), so per the claim the default decomposition
should be substituted and phases 2-4 should proceed; instead the parsed
subtasks property is undefined, phase 2's subtasks.map throws, and the
request aborts with the outer 500 handler. -/
theorem c7_counterexample :
    jsonParse c7CexRaw = Except.ok (JValue.obj [("a", JValue.str "subtasks")]) ∧
      jsField (JValue.obj [("a", JValue.str "subtasks")]) "subtasks" = none ∧
      jsSubtasks c7CexRaw = none ∧
      discussV2 c7CexSend "q" =
        Except.error "TypeError: subtasks.map is not a function" :=
  ⟨rfl, rfl, rfl, rfl⟩

/-- Claim C7 (amended): when the regex finds no match, or the matched
text fails to parse as JSON, the fixed 3-item default decomposition is
substituted and phases 2-4 still proceed (given the non-parallel split
and summary sends succeed); but when the matched text parses as valid
JSON whose top-level subtasks property is missing or not an array, the
request aborts with an error instead of substituting the default. -/
theorem c7_split_fallback (raw m : String) (send : Send) (question fa : String) :
    (jsMatchSubtasks raw = none → jsSubtasks raw = some defaultSubtasks)
  ∧ (jsMatchSubtasks raw = some m → jsonParse m = Except.error () →
      jsSubtasks raw = some defaultSubtasks)
  ∧ (send (splitPrompt question) "1" = Except.ok raw →
     jsSubtasks raw = some defaultSubtasks →
     send (v2SummaryPrompt send question defaultSubtasks) "1" = Except.ok fa →
     ∃ res, discussV2 send question = Except.ok res ∧
       res.phases.length = 4 ∧
       res.phases.head? = some (PhaseResult.split defaultSubtasks raw))
  ∧ (send (splitPrompt question) "1" = Except.ok raw →
     jsSubtasks raw = none →
     ∃ e, discussV2 send question = Except.error e) := by
  refine ⟨?_, ?_, ?_, ?_⟩
  · intro h
    unfold jsSubtasks
    rw [h]
  · intro hm hp
    have h1 : jsSubtasks raw = subtasksOfMatch m := by
      unfold jsSubtasks; rw [hm]
    rw [h1]
    unfold subtasksOfMatch
    rw [hp]
  · intro hsplit hsub hsum
    have h1 : discussV2 send question = discussV2AfterSplit send question raw := by
      unfold discussV2; rw [hsplit]
    have h2 : discussV2AfterSplit send question raw =
        discussV2WithSubtasks send question raw defaultSubtasks := by
      unfold discussV2AfterSplit; rw [hsub]
    have hsum2 : send (summaryPrompt question
        (execSummaryOf (phase2Exec send question defaultSubtasks))
        (reviewSummaryOf (phase3Review send question
          (phase2Exec send question defaultSubtasks)))) "1" = Except.ok fa := hsum
    have h3 : discussV2WithSubtasks send question raw defaultSubtasks =
        Except.ok ⟨[PhaseResult.split defaultSubtasks raw,
                    PhaseResult.execute (phase2Exec send question defaultSubtasks),
                    PhaseResult.review (phase3Review send question
                      (phase2Exec send question defaultSubtasks)),
                    PhaseResult.summarize fa], fa⟩ := by
      simp only [discussV2WithSubtasks]
      rw [if_neg (by
        rw [phase2Exec_length]
        have h3 : defaultSubtasks.length = 3 := rfl
        omega)]
      rw [hsum2]
    exact ⟨_, (h1.trans h2).trans h3, rfl, rfl⟩
  · intro hsplit hsub
    have h1 : discussV2 send question = discussV2AfterSplit send question raw := by
      unfold discussV2; rw [hsplit]
    have h2 : discussV2AfterSplit send question raw =
        Except.error "TypeError: subtasks.map is not a function" := by
      unfold discussV2AfterSplit; rw [hsub]
    exact ⟨_, h1.trans h2⟩

/-- A send oracle whose every send returns prose with no JSON braces. -/
def c7Send : Send := fun _p _a => Except.ok "no json here"

/-- Witness for C7 (amended): on a split response with no regex match the
default decomposition is substituted and the parallel discussion
completes all 4 phases. -/
theorem c7_split_fallback_witness :
    jsSubtasks "no json here" = some defaultSubtasks ∧
      ∃ res, discussV2 c7Send "q" = Except.ok res ∧
        res.phases.length = 4 ∧
        res.phases.head? = some (PhaseResult.split defaultSubtasks "no json here") :=
  ⟨(c7_split_fallback "no json here" "" c7Send "q" "no json here").1 rfl,
   (c7_split_fallback "no json here" "" c7Send "q" "no json here").2.2.1
     rfl ((c7_split_fallback "no json here" "" c7Send "q" "no json here").1 rfl) rfl⟩

/-! ## Session registry state (gemini-browser.js, the accounts map)

The registry is the accounts Map from accountId to (page, isReady).
Pages are identified by numeric handles.  The operations that touch the
map: the constructor (empty map, line 13), discoverExistingPages
(lines 48-64), getAccountPage (lines 66-101), navigateToConversation
(lines 380-405), close (lines 407-411). -/

structure Session where
  pageId : Nat
  isReady : Bool
deriving DecidableEq

/-- JavaScript Map.set: replace in place if the key is present (keeping
insertion order), otherwise append. -/
def setAccount : List (String × Session) → String → Session → List (String × Session)
  | [], k, v => [(k, v)]
  | (k2, v2) :: rest, k, v =>
    if k2 = k then (k, v) :: rest else (k2, v2) :: setAccount rest k v

/-- One registry-mutating operation. -/
inductive RegOp where
  | discover (found : List (String × Nat))
  | getPage (accountId : String) (newPageId : Nat)
  | navigate (accountId : String) (newPageId : Nat)
  | close

/-- Effect of one operation on the accounts map.  discoverExistingPages
sets every matched page ready (lines 57 and 61); getAccountPage returns a
tracked ready session unchanged and otherwise records a fresh ready one
(lines 72-77 and 97); navigateToConversation records the session ready
(line 401); close clears the map (line 408). -/
def regStep (m : List (String × Session)) : RegOp → List (String × Session)
  | RegOp.discover found =>
    found.foldl (fun acc p => setAccount acc p.1 ⟨p.2, true⟩) m
  | RegOp.getPage id pg =>
    match m.lookup id with
    | some s => if s.isReady then m else setAccount m id ⟨pg, true⟩
    | none => setAccount m id ⟨pg, true⟩
  | RegOp.navigate id pg => setAccount m id ⟨pg, true⟩
  | RegOp.close => []

/-- The registry state after a sequence of operations from the
constructor's empty map. -/
def regRun (ops : List RegOp) : List (String × Session) :=
  ops.foldl regStep []

theorem setAccount_keys_subset :
    ∀ (m : List (String × Session)) (k : String) (v : Session) (x : String),
      x ∈ (setAccount m k v).map Prod.fst → x ∈ m.map Prod.fst ∨ x = k := by
  intro m
  induction m with
  | nil =>
    intro k v x hx
    simp [setAccount] at hx
    exact Or.inr hx
  | cons p rest ih =>
    intro k v x hx
    obtain ⟨k2, v2⟩ := p
    by_cases hk : k2 = k
    · rw [setAccount, if_pos hk] at hx
      rcases List.mem_cons.mp hx with h | h
      · exact Or.inr h
      · exact Or.inl (by simpa using Or.inr (by simpa using h))
    · rw [setAccount, if_neg hk] at hx
      rcases List.mem_cons.mp hx with h | h
      · exact Or.inl (by simp [h])
      · rcases ih k v x h with h2 | h2
        · exact Or.inl (by simp; right; simpa using h2)
        · exact Or.inr h2

theorem setAccount_keys_nodup :
    ∀ (m : List (String × Session)) (k : String) (v : Session),
      (m.map Prod.fst).Nodup → ((setAccount m k v).map Prod.fst).Nodup := by
  intro m
  induction m with
  | nil => intro k v _; simp [setAccount]
  | cons p rest ih =>
    intro k v hnd
    obtain ⟨k2, v2⟩ := p
    simp only [List.map_cons, List.nodup_cons] at hnd
    by_cases hk : k2 = k
    · rw [setAccount, if_pos hk]
      simp only [List.map_cons, List.nodup_cons]
      exact ⟨by rw [← hk]; exact hnd.1, hnd.2⟩
    · rw [setAccount, if_neg hk]
      simp only [List.map_cons, List.nodup_cons]
      refine ⟨?_, ih k v hnd.2⟩
      intro hmem
      rcases setAccount_keys_subset rest k v k2 hmem with h | h
      · exact hnd.1 h
      · exact hk h

theorem setAccount_all_ready :
    ∀ (m : List (String × Session)) (k : String) (v : Session),
      v.isReady = true → (∀ p ∈ m, p.2.isReady = true) →
      ∀ p ∈ setAccount m k v, p.2.isReady = true := by
  intro m
  induction m with
  | nil =>
    intro k v hv _ p hp
    simp [setAccount] at hp
    rw [hp]
    exact hv
  | cons q rest ih =>
    intro k v hv hall p hp
    obtain ⟨k2, v2⟩ := q
    by_cases hk : k2 = k
    · rw [setAccount, if_pos hk] at hp
      rcases List.mem_cons.mp hp with h | h
      · rw [h]; exact hv
      · exact hall p (List.mem_cons_of_mem _ h)
    · rw [setAccount, if_neg hk] at hp
      rcases List.mem_cons.mp hp with h | h
      · exact hall p (h ▸ List.mem_cons_self _ _)
      · exact ih k v hv (fun q hq => hall q (List.mem_cons_of_mem _ hq)) p h

/-- The registry invariant: distinct keys and every session ready. -/
def RegInv (m : List (String × Session)) : Prop :=
  (m.map Prod.fst).Nodup ∧ ∀ p ∈ m, p.2.isReady = true

theorem discover_fold_inv :
    ∀ (found : List (String × Nat)) (m : List (String × Session)),
      RegInv m →
      RegInv (found.foldl (fun acc p => setAccount acc p.1 ⟨p.2, true⟩) m) := by
  intro found
  induction found with
  | nil => intro m h; exact h
  | cons f rest ih =>
    intro m h
    exact ih _ ⟨setAccount_keys_nodup m f.1 ⟨f.2, true⟩ h.1,
      setAccount_all_ready m f.1 ⟨f.2, true⟩ rfl h.2⟩

theorem regStep_inv (m : List (String × Session)) (op : RegOp)
    (h : RegInv m) : RegInv (regStep m op) := by
  cases op with
  | discover found => exact discover_fold_inv found m h
  | getPage id pg =>
    rw [regStep]
    cases hl : m.lookup id with
    | some s =>
      by_cases hr : s.isReady
      · simpa [hr] using h
      · simp only [hr, if_false]
        exact ⟨setAccount_keys_nodup m id ⟨pg, true⟩ h.1,
          setAccount_all_ready m id ⟨pg, true⟩ rfl h.2⟩
    | none =>
      exact ⟨setAccount_keys_nodup m id ⟨pg, true⟩ h.1,
        setAccount_all_ready m id ⟨pg, true⟩ rfl h.2⟩
  | navigate id pg =>
    exact ⟨setAccount_keys_nodup m id ⟨pg, true⟩ h.1,
      setAccount_all_ready m id ⟨pg, true⟩ rfl h.2⟩
  | close => exact ⟨List.nodup_nil, by simp [regStep]⟩

theorem regRun_inv (ops : List RegOp) : RegInv (regRun ops) := by
  suffices h : ∀ (l : List RegOp) (m : List (String × Session)),
      RegInv m → RegInv (l.foldl regStep m) by
    exact h ops [] ⟨List.nodup_nil, by simp⟩
  intro l
  induction l with
  | nil => intro m h; exact h
  | cons op rest ih => intro m h; exact ih _ (regStep_inv m op h)

theorem lookup_mem_sessions :
    ∀ (m : List (String × Session)) (id : String) (s : Session),
      m.lookup id = some s → (id, s) ∈ m := by
  intro m
  induction m with
  | nil => intro id s h; exact absurd h (by simp)
  | cons p rest ih =>
    intro id s h
    obtain ⟨k, v⟩ := p
    by_cases hk : id = k
    · subst hk
      simp only [List.lookup, beq_self_eq_true] at h
      injection h with h
      rw [h]
      exact List.mem_cons_self _ _
    · have hbeq : (id == k) = false := beq_eq_false_iff_ne.mpr hk
      simp only [List.lookup, hbeq] at h
      exact List.mem_cons_of_mem _ (ih id s h)

/-! ### Claim C9 -/

/-- Claim C9: after any operation sequence the registry holds at most one
session per agentId (its key list has no duplicates), every tracked
session is ready (each recording operation sets ready, none clears it),
and hence readiness is monotonic: whatever operation is appended, any
session still present afterwards is ready — a session only disappears
when close resets the registry. -/
theorem c9_registry_invariants (ops : List RegOp) (op : RegOp) (id : String)
    (s : Session) :
    ((regRun ops).map Prod.fst).Nodup
  ∧ (∀ p ∈ regRun ops, p.2.isReady = true)
  ∧ ((regRun (ops ++ [op])).lookup id = some s → s.isReady = true) := by
  refine ⟨(regRun_inv ops).1, (regRun_inv ops).2, ?_⟩
  intro hl
  exact (regRun_inv (ops ++ [op])).2 (id, s)
    (lookup_mem_sessions _ id s hl)

/-- Witness for C9 at a concrete operation sequence. -/
theorem c9_registry_invariants_witness :
    (((regRun [RegOp.getPage "0" 1, RegOp.discover [("1", 5)]]).map Prod.fst).Nodup)
  ∧ (⟨2, true⟩ : Session).isReady = true :=
  ⟨(c9_registry_invariants [RegOp.getPage "0" 1, RegOp.discover [("1", 5)]]
      RegOp.close "0" ⟨1, true⟩).1,
   (c9_registry_invariants [RegOp.getPage "0" 1] (RegOp.navigate "0" 2)
      "0" ⟨2, true⟩).2.2 rfl⟩

/-! ## Concurrent getAccountPage calls on the event loop (claim C8)

Node runs getAccountPage cooperatively: code between awaits is atomic,
and every await is a suspension point.  getAccountPage splits into two
synchronous segments: from entry through the map check to the
context.newPage call (lines 66-81), then — after the navigation and
readiness awaits (lines 88-95) — the map update and return (lines
97-100).  There is no mutex, queue, or any other guard between the two
segments: the source contains no serialization construct at all. -/

/-- The shared state: the accounts map (accountId to pageId; every stored
session is ready), the page-handle allocator of context.newPage, and the
log of tab creations. -/
structure GapShared where
  accounts : List (String × Nat)
  nextPage : Nat
  created : List (String × Nat)

/-- One in-flight getAccountPage call: its accountId, its program counter
(0 = before the map check, 1 = suspended in provisioning awaits,
2 = returned), the page it allocated, and its return value. -/
structure GapTask where
  acct : String
  pc : Nat
  pending : Nat
  result : Option Nat

/-- Map.set on the accountId-to-pageId map. -/
def assocSet : List (String × Nat) → String → Nat → List (String × Nat)
  | [], k, v => [(k, v)]
  | (k2, v2) :: rest, k, v =>
    if k2 = k then (k, v) :: rest else (k2, v2) :: assocSet rest k v

/-- First synchronous segment (lines 66-81): on a tracked (hence ready)
session return its page; otherwise open a new tab and suspend. -/
def gapSegA (sh : GapShared) (t : GapTask) : GapShared × GapTask :=
  match sh.accounts.lookup t.acct with
  | some pg => (sh, { t with pc := 2, result := some pg })
  | none =>
    ({ sh with nextPage := sh.nextPage + 1,
               created := sh.created ++ [(t.acct, sh.nextPage)] },
     { t with pc := 1, pending := sh.nextPage })

/-- Second synchronous segment (lines 97-100): record the session and
return the allocated page. -/
def gapSegB (sh : GapShared) (t : GapTask) : GapShared × GapTask :=
  ({ sh with accounts := assocSet sh.accounts t.acct t.pending },
   { t with pc := 2, result := some t.pending })

/-- Run the next pending segment of task i (a no-op on finished tasks or
out-of-range indices). -/
def gapStep (st : GapShared × List GapTask) (i : Nat) : GapShared × List GapTask :=
  match st.2.get? i with
  | none => st
  | some t =>
    if t.pc = 0 then
      let r := gapSegA st.1 t
      (r.1, st.2.set i r.2)
    else if t.pc = 1 then
      let r := gapSegB st.1 t
      (r.1, st.2.set i r.2)
    else st

/-- Run a schedule: the event loop picks, at each step, which in-flight
call makes progress. -/
def gapRun (sched : List Nat) (st : GapShared × List GapTask) :
    GapShared × List GapTask :=
  sched.foldl gapStep st

/-- Two concurrent getAccountPage calls for the same agentId "0" against
an empty registry. -/
def gapInit : GapShared × List GapTask :=
  (⟨[], 1, []⟩, [⟨"0", 0, 0, none⟩, ⟨"0", 0, 0, none⟩])

/-! ### Claim C8 -/

/-- Claim C8 fails on the code: with the schedule in which the second
call starts while the first is suspended in its provisioning awaits
(schedule 0,1,0,1), both calls pass the map check, two tabs are created
for agentId "0", and the callers end up holding two distinct page
handles; only the fully serial schedule (0,0,1) reuses one tab.  Nothing
in getAccountPage or sendMessage makes the second caller wait. -/
theorem c8_no_per_agent_serialization :
    ((gapRun [0, 1, 0, 1] gapInit).1.created = [("0", 1), ("0", 2)] ∧
       (gapRun [0, 1, 0, 1] gapInit).2.map GapTask.result = [some 1, some 2]) ∧
    ((gapRun [0, 0, 1] gapInit).1.created = [("0", 1)] ∧
       (gapRun [0, 0, 1] gapInit).2.map GapTask.result = [some 1, some 1]) :=
  ⟨⟨rfl, rfl⟩, ⟨rfl, rfl⟩⟩

/-! ## Persistence (db.js, saveMessage and updateRoomTimestamp)

Rows carry the columns of the schema (lines 21-57); AUTOINCREMENT ids
are modelled by a next-id counter and CURRENT_TIMESTAMP by an explicit
now argument.  The repository never enables the SQLite foreign-key
pragma, so inserts succeed independently of chat_rooms contents. -/

structure MsgRow where
  id : Nat
  room_id : String
  sender : String
  content : String
  target : Option String
  created_at : Nat
deriving DecidableEq

structure RoomRow where
  id : String
  name : String
  created_at : Nat
  updated_at : Nat
deriving DecidableEq

structure AgentRow where
  id : Nat
  room_id : String
  agent_id : String
  gemini_url : Option String
  gemini_conv_id : Option String
deriving DecidableEq

structure Db where
  chat_rooms : List RoomRow
  agent_conversations : List AgentRow
  messages : List MsgRow
  nextMessageId : Nat
deriving DecidableEq

/-- updateRoomTimestamp (db.js lines 91-96): set updated_at to the
current timestamp on every chat_rooms row whose id equals roomId. -/
def updateRoomTimestamp (db : Db) (roomId : String) (now : Nat) : Db :=
  { db with chat_rooms :=
      (db.chat_rooms.map
        (fun r => if r.id = roomId then { r with updated_at := now } else r)) }

/-- saveMessage (db.js lines 140-151): insert one messages row, bump the
room timestamp, return lastInsertRowid. -/
def saveMessage (db : Db) (roomId sender content : String)
    (target : Option String) (now : Nat) : Nat × Db :=
  let row : MsgRow := ⟨db.nextMessageId, roomId, sender, content, target, now⟩
  let db1 : Db := { db with messages := db.messages ++ [row],
                            nextMessageId := db.nextMessageId + 1 }
  (row.id, updateRoomTimestamp db1 roomId now)

/-! ### Claim C10 -/

/-- Claim C10: a successful saveMessage call appends exactly one row to
messages (existing rows untouched), returns that row's id, sets
updated_at to the current timestamp on exactly the chat_rooms rows whose
id equals roomId (all other rooms pass through unchanged), and leaves
agent_conversations untouched. -/
theorem c10_saveMessage_frame (db : Db) (roomId sender content : String)
    (target : Option String) (now : Nat) :
    (saveMessage db roomId sender content target now).1 = db.nextMessageId
  ∧ (saveMessage db roomId sender content target now).2.messages =
      db.messages ++ [⟨db.nextMessageId, roomId, sender, content, target, now⟩]
  ∧ (saveMessage db roomId sender content target now).2.agent_conversations =
      db.agent_conversations
  ∧ (saveMessage db roomId sender content target now).2.chat_rooms =
      db.chat_rooms.map
        (fun r => if r.id = roomId then { r with updated_at := now } else r)
  ∧ (∀ rm ∈ db.chat_rooms, rm.id ≠ roomId →
      rm ∈ (saveMessage db roomId sender content target now).2.chat_rooms)
  ∧ (∀ rm ∈ db.chat_rooms, rm.id = roomId →
      { rm with updated_at := now } ∈
        (saveMessage db roomId sender content target now).2.chat_rooms) := by
  refine ⟨by rfl, by rfl, by rfl, by rfl, ?_, ?_⟩
  · intro rm hrm hne
    have h : rm ∈ db.chat_rooms.map
        (fun r => if r.id = roomId then { r with updated_at := now } else r) :=
      List.mem_map.mpr ⟨rm, hrm, by simp [hne]⟩
    exact h
  · intro rm hrm heq
    have h : { rm with updated_at := now } ∈ db.chat_rooms.map
        (fun r => if r.id = roomId then { r with updated_at := now } else r) :=
      List.mem_map.mpr ⟨rm, hrm, by simp [heq]⟩
    exact h

/-- A concrete database for the C10 witness. -/
def c10Db : Db :=
  ⟨[⟨"r1", "n", 0, 0⟩, ⟨"r2", "n2", 0, 0⟩], [], [], 7⟩

/-- Witness for C10 at a concrete database: the call returns the next id,
updates the matching room's timestamp, and passes the other room through. -/
theorem c10_saveMessage_frame_witness :
    (saveMessage c10Db "r1" "u" "hi" none 5).1 = 7
  ∧ (⟨"r2", "n2", 0, 0⟩ : RoomRow) ∈ (saveMessage c10Db "r1" "u" "hi" none 5).2.chat_rooms
  ∧ (⟨"r1", "n", 0, 5⟩ : RoomRow) ∈ (saveMessage c10Db "r1" "u" "hi" none 5).2.chat_rooms :=
  ⟨(c10_saveMessage_frame c10Db "r1" "u" "hi" none 5).1,
   (c10_saveMessage_frame c10Db "r1" "u" "hi" none 5).2.2.2.2.1
     ⟨"r2", "n2", 0, 0⟩ (by decide) (by decide),
   (c10_saveMessage_frame c10Db "r1" "u" "hi" none 5).2.2.2.2.2
     ⟨"r1", "n", 0, 0⟩ (by decide) rfl⟩

end GeminiApi
